import Mathlib

/-!
Shallow embedding of `src/server.js`: a WebSocket relay server that keeps an
in-memory registry of device connections (`clients`, a JS `Map` from client id
to `{ ws, metadata }`), updates it from device messages (`connect`,
`heartbeat`, anything else), evicts stale entries on a sweep timer, and routes
Telegram operator messages either point-to-point (`esp32:<id>:<cmd>`) or as a
broadcast to every open connection.

The JS `Map` is modelled as an ordered association list with unique keys
(`Registry`).  Timestamps are milliseconds as `Int` (JS `Date.now()` /
`new Date().getTime()`).  JSON object payloads sent to devices are modelled as
ordered key-value lists of strings, mirroring the fields and field order of
the object literals passed to `JSON.stringify` in the source.  Parse failure
of an inbound device message (the `catch` branch of `JSON.parse`) is modelled
as a distinguished `DeviceMsg.malformed` variant.
-/

namespace Track

/-- Metadata of one registered client, from the object built at
`clients.set(clientId, { ws, metadata })` in `server.js` (fields `ip`,
`location_device`, `lastSeen`). -/
structure Metadata where
  ip : String
  location_device : String
  lastSeen : Int
  deriving Repr, DecidableEq

/-- One registry entry: the `ws` handle's observable state (`readyState ===
WebSocket.OPEN` as `wsOpen`, the `isAlive` flag set by the pong handler) plus
the metadata record. -/
structure Client where
  wsOpen : Bool
  isAlive : Bool
  metadata : Metadata
  deriving Repr, DecidableEq

/-- The `clients` map: clientId to client data, insertion-ordered,
keys unique (JS `Map`). -/
abbrev Registry := List (String × Client)

/-- A JSON object payload sent to a device, as the ordered field list of the
object literal in the source. -/
abbrev Payload := List (String × String)

/-- JS `Map.get`: the value at the (unique) key, if present. -/
def getClient : Registry → String → Option Client
  | [], _ => none
  | (k, c) :: rest, k₀ => if k = k₀ then some c else getClient rest k₀

/-- JS `Map.set`: replace the value at an existing key in place (keeping its
position), otherwise append a new entry at the end. -/
def mapSet : Registry → String → Client → Registry
  | [], k, c => [(k, c)]
  | (k₁, c₁) :: rest, k, c =>
    if k₁ = k then (k, c) :: rest else (k₁, c₁) :: mapSet rest k c

/-- JS `Map.delete`: remove the (unique) entry at the key, if present. -/
def mapDelete : Registry → String → Registry
  | [], _ => []
  | (k₁, c₁) :: rest, k => if k₁ = k then rest else (k₁, c₁) :: mapDelete rest k

/-- JS `String.prototype.split` with a single-character separator, on the
character list: `"".split(sep)` is `[""]`, separators delimit (possibly
empty) fields. -/
def splitCharList (sep : Char) : List Char → List (List Char)
  | [] => [[]]
  | c :: rest =>
    match splitCharList sep rest with
    | [] => if c = sep then [[], []] else [[c]]
    | g :: gs => if c = sep then [] :: g :: gs else (c :: g) :: gs

/-- JS `text.split(sep)` for a one-character separator. -/
def jsSplit (s : String) (sep : Char) : List String :=
  (splitCharList sep s.toList).map (fun cs => String.mk cs)

/-- JS `Array.prototype.join(sep)`. -/
def jsJoin (sep : String) : List String → String
  | [] => ""
  | [s] => s
  | s :: rest => s ++ sep ++ jsJoin sep rest

/-- ASCII lowercasing of one character (the fragment of JS `toLowerCase`
relevant to comparing against the ASCII literal `"esp32"`). -/
def jsToLowerChar (c : Char) : Char :=
  if 'A' ≤ c ∧ c ≤ 'Z' then Char.ofNat (c.toNat + 32) else c

/-- JS `s.toLowerCase()` (ASCII fragment). -/
def jsToLower (s : String) : String :=
  String.mk (s.toList.map jsToLowerChar)

/-- JS `v || dflt` for an optional string field: absent (`undefined`) and the
empty string are falsy. -/
def jsOr (v : Option String) (dflt : String) : String :=
  match v with
  | none => dflt
  | some s => if s = "" then dflt else s

/-- An inbound device message after `JSON.parse`: either a parsed record with
its `type` discriminator and the optional `ip` / `location_device` fields,
or `malformed` for text on which the parse (or field access) throws. -/
inductive DeviceMsg where
  | parsed (ty : Option String) (ipField : Option String)
      (locationField : Option String)
  | malformed
  deriving Repr, DecidableEq

/-- The operator-notification line sent on registration:
`Client registered: <location> (<ip>) (Total: <n>)`. -/
def registeredNotif (locationDevice ipAddr : String) (total : Nat) : String :=
  s!"Client registered: {locationDevice} ({ipAddr}) (Total: {total})"

/-- The `ws.on("message")` handler: parse, look up the client, then dispatch
on `data.type`.  `connect` overwrites `ip`, `location_device` and `lastSeen`
and (when the Telegram user is resolved, `tgReady`) emits one operator
notification; `heartbeat` overwrites only `lastSeen`; any other discriminator
is logged and ignored; a malformed payload is caught and ignored.  Returns
the new registry and the list of operator notifications sent. -/
def handleMessage (clientId clientIP : String) (now : Int) (tgReady : Bool)
    (st : Registry) (msg : DeviceMsg) : Registry × List String :=
  match msg with
  | .malformed => (st, [])
  | .parsed ty ipField locationField =>
    match getClient st clientId with
    | none => (st, [])
    | some clientData =>
      if ty = some "connect" then
        let locationDevice := jsOr locationField "Unknown"
        let newIp := jsOr ipField clientIP
        let md : Metadata :=
          { ip := newIp, location_device := locationDevice, lastSeen := now }
        let st₁ := mapSet st clientId { clientData with metadata := md }
        (st₁, if tgReady then [registeredNotif locationDevice newIp st₁.length]
              else [])
      else if ty = some "heartbeat" then
        (mapSet st clientId
          { clientData with
            metadata := { clientData.metadata with lastSeen := now } }, [])
      else
        (st, [])

/-- The `ws.on("close")` handler: log, then `clients.delete(clientId)` (the
operator notification there is commented out in the source). -/
def handleClose (clientId : String) (st : Registry) : Registry :=
  mapDelete st clientId

/-- The `ws.on("error")` handler: `console.error` only; the registry is not
touched. -/
def handleError (clientId : String) (st : Registry) : Registry :=
  st

/-- The `ws.on("pong", heartbeat)` handler: `this.isAlive = true` on that
connection's transport; nothing else changes. -/
def handlePong (clientId : String) : Registry → Registry
  | [] => []
  | (k, c) :: rest =>
    if k = clientId then (k, { c with isAlive := true }) :: handlePong clientId rest
    else (k, c) :: handlePong clientId rest

/-- The `wss.on("connection")` handler: allocate the entry with the
transport-observed address, placeholder label and `lastSeen = now`, and send
`{type:"connected", clientId}` back to the device. -/
def handleConnection (clientId clientIP : String) (now : Int) (st : Registry) :
    Registry × Payload :=
  (st ++ [(clientId,
    { wsOpen := true, isAlive := true,
      metadata := { ip := clientIP, location_device := "Waiting...",
                    lastSeen := now } })],
   [("type", "connected"), ("clientId", clientId)])

/-- The `broadcast` helper: send the payload to every entry whose transport is
open; deliveries are recorded as (recipient id, payload). -/
def broadcast (st : Registry) (payload : Payload) : List (String × Payload) :=
  (st.filter (fun p => p.2.wsOpen)).map (fun p => (p.1, payload))

/-- The probe-tick payload `{type:"command", action:"ping"}`. -/
def pingPayload : Payload := [("type", "command"), ("action", "ping")]

/-- The 30-second probe interval: `broadcast({type:"command", action:"ping"})`. -/
def probeTick (st : Registry) : List (String × Payload) :=
  broadcast st pingPayload

/-- The staleness test of the sweep interval:
`now - new Date(metadata.lastSeen).getTime() > 30000`. -/
def isStale (now lastSeen : Int) : Bool :=
  now - lastSeen > 30000

/-- The ids on which the sweep tick calls `ws.terminate()`: every entry whose
`lastSeen` is more than 30000 ms before `now`. -/
def sweepTerminated (now : Int) (st : Registry) : List String :=
  (st.filter (fun p => isStale now p.2.metadata.lastSeen)).map Prod.fst

/-- The registry after one sweep tick, including the `close` events that the
`ws.terminate()` calls provoke (each of which runs `clients.delete`): exactly
the non-stale entries remain. -/
def sweepTick (now : Int) (st : Registry) : Registry :=
  st.filter (fun p => !isStale now p.2.metadata.lastSeen)

/-- The unicast payload of a point-to-point command:
`JSON.stringify({ clientID, message: command })`. -/
def unicastPayload (clientID command : String) : Payload :=
  [("clientID", clientID), ("message", command)]

/-- The broadcast relay envelope `{ from: chatId, sender: senderId,
message: text }`. -/
def relayPayload (chatId senderId text : String) : Payload :=
  [("from", chatId), ("sender", senderId), ("message", text)]

/-- An inbound Telegram event's message: `chatId` and `senderId` as optional
(`msg.chatId?.toString()`, `msg.senderId?.toString()`), and the text
(`msg.message`; the handler returns early when it is falsy, i.e. empty). -/
structure TgMsg where
  chatId : Option String
  senderId : Option String
  text : String
  deriving Repr, DecidableEq

/-- `msg.senderId?.toString() || "unknown"`. -/
def senderStr (m : TgMsg) : String :=
  jsOr m.senderId "unknown"

/-- The routing step of the Telegram handler on an accepted message: split the
text on `:`; with at least 3 parts and first part lowercasing to `esp32`,
send `{clientID, message}` to each entry whose key equals `parts[1]` and
whose transport is open (the JS `for` loop over `clients.entries()`);
otherwise broadcast the relay envelope. -/
def routeText (st : Registry) (chatId senderId text : String) :
    List (String × Payload) :=
  let parts := jsSplit text ':'
  if 3 ≤ parts.length ∧ jsToLower (parts.headD "") = "esp32" then
    let clientID := parts.getD 1 ""
    let command := jsJoin ":" (parts.drop 2)
    (st.filter (fun p => p.1 == clientID && p.2.wsOpen)).map
      (fun p => (p.1, unicastPayload clientID command))
  else
    broadcast st (relayPayload chatId senderId text)

/-- The `telegramClient.addEventHandler` callback: return early when the text
is falsy or the chat id is missing or not in `allowedChatIds`; otherwise
route.  The registry is never mutated by this handler; the result pairs it
with the list of deliveries (recipient id, payload). -/
def handleTelegram (allowed : List String) (st : Registry) (m : TgMsg) :
    Registry × List (String × Payload) :=
  if m.text = "" then (st, [])
  else
    match m.chatId with
    | none => (st, [])
    | some chatId =>
      if chatId ∈ allowed then (st, routeText st chatId (senderStr m) m.text)
      else (st, [])

/-! ### Concrete example data (used to evaluate the development on closed
inputs) -/

/-- A registered open client `A`, last seen at time 0. -/
def exA : Client :=
  { wsOpen := true, isAlive := true,
    metadata := { ip := "1.1.1.1", location_device := "lab", lastSeen := 0 } }

/-- A registered open client `B`, last seen at time 0. -/
def exB : Client :=
  { wsOpen := true, isAlive := true,
    metadata := { ip := "2.2.2.2", location_device := "yard", lastSeen := 0 } }

/-- A two-client registry with ids `A` and `B`. -/
def exSt : Registry := [("A", exA), ("B", exB)]

/-- An accepted operator message `esp32:A:reboot` from allowed chat `777`. -/
def exMsg : TgMsg :=
  { chatId := some "777", senderId := some "42", text := "esp32:A:reboot" }

/-! ### Association-list lemmas for the registry -/

theorem mem_of_getClient_eq_some {st : Registry} {k : String} {c : Client}
    (h : getClient st k = some c) : (k, c) ∈ st := by
  induction st with
  | nil => simp [getClient] at h
  | cons p rest ih =>
    obtain ⟨k₁, c₁⟩ := p
    by_cases hk : k₁ = k
    · subst hk
      simp [getClient] at h
      subst h
      exact List.mem_cons_self _ _
    · simp [getClient, hk] at h
      exact List.mem_cons_of_mem _ (ih h)

theorem getClient_eq_some_of_mem {st : Registry} {k : String} {c : Client}
    (hnd : (st.map Prod.fst).Nodup) (hmem : (k, c) ∈ st) :
    getClient st k = some c := by
  induction st with
  | nil => cases hmem
  | cons p rest ih =>
    obtain ⟨k₁, c₁⟩ := p
    simp only [List.map_cons, List.nodup_cons] at hnd
    rcases List.mem_cons.mp hmem with h | h
    · injection h with h1 h2
      subst h1
      subst h2
      simp [getClient]
    · have hne : k₁ ≠ k := by
        intro he
        exact hnd.1 (by rw [he]; exact List.mem_map_of_mem Prod.fst h)
      simp only [getClient, if_neg hne]
      exact ih hnd.2 h

theorem getClient_eq_none_iff {st : Registry} {k : String} :
    getClient st k = none ↔ ∀ c, (k, c) ∉ st := by
  induction st with
  | nil => simp [getClient]
  | cons p rest ih =>
    obtain ⟨k₁, c₁⟩ := p
    simp only [getClient, List.mem_cons]
    by_cases hk : k₁ = k
    · subst hk
      simp only [if_pos rfl]
      constructor
      · intro h
        cases h
      · intro h
        exact (h c₁ (Or.inl rfl)).elim
    · simp only [if_neg hk, ih]
      constructor
      · intro h c hc
        rcases hc with hc | hc
        · injection hc with h1 h2
          exact hk h1.symm
        · exact h c hc
      · intro h c hc
        exact h c (Or.inr hc)

theorem value_eq_of_mem_nodup {st : Registry} {k : String} {a b : Client}
    (hnd : (st.map Prod.fst).Nodup) (ha : (k, a) ∈ st) (hb : (k, b) ∈ st) :
    a = b := by
  have h₁ := getClient_eq_some_of_mem hnd ha
  have h₂ := getClient_eq_some_of_mem hnd hb
  rw [h₁] at h₂
  exact Option.some.inj h₂

theorem getClient_mapSet_self (st : Registry) (k : String) (c : Client) :
    getClient (mapSet st k c) k = some c := by
  induction st with
  | nil => simp [mapSet, getClient]
  | cons p rest ih =>
    obtain ⟨k₁, c₁⟩ := p
    by_cases hk : k₁ = k
    · simp [mapSet, hk, getClient]
    · simp [mapSet, hk, getClient, ih]

theorem getClient_mapSet_other (st : Registry) (k k₀ : String) (c : Client)
    (h : k₀ ≠ k) : getClient (mapSet st k c) k₀ = getClient st k₀ := by
  induction st with
  | nil => simp [mapSet, getClient, Ne.symm h]
  | cons p rest ih =>
    obtain ⟨k₁, c₁⟩ := p
    by_cases hk : k₁ = k
    · subst hk
      simp [mapSet, getClient, Ne.symm h]
    · simp only [mapSet, if_neg hk, getClient]
      by_cases hk₀ : k₁ = k₀
      · simp [hk₀]
      · simp [hk₀, ih]

theorem getClient_mapDelete_self (st : Registry) (k : String)
    (hnd : (st.map Prod.fst).Nodup) :
    getClient (mapDelete st k) k = none := by
  induction st with
  | nil => simp [mapDelete, getClient]
  | cons p rest ih =>
    obtain ⟨k₁, c₁⟩ := p
    simp only [List.map_cons, List.nodup_cons] at hnd
    by_cases hk : k₁ = k
    · subst hk
      simp only [mapDelete, if_pos rfl]
      rw [getClient_eq_none_iff]
      intro c hc
      exact hnd.1 (List.mem_map_of_mem Prod.fst hc)
    · simp [mapDelete, hk, getClient, ih hnd.2]

theorem getClient_mapDelete_other (st : Registry) (k k₀ : String)
    (h : k₀ ≠ k) : getClient (mapDelete st k) k₀ = getClient st k₀ := by
  induction st with
  | nil => simp [mapDelete]
  | cons p rest ih =>
    obtain ⟨k₁, c₁⟩ := p
    by_cases hk : k₁ = k
    · subst hk
      simp [mapDelete, getClient, Ne.symm h]
    · simp only [mapDelete, if_neg hk, getClient]
      by_cases hk₀ : k₁ = k₀
      · simp [hk₀]
      · simp [hk₀, ih]

/-! ### Sweep, filter and pong lemmas -/

theorem sweepTick_removes_stale {now : Int} {st : Registry} {id : String}
    {c : Client} (hnd : (st.map Prod.fst).Nodup) (hmem : (id, c) ∈ st)
    (hstale : isStale now c.metadata.lastSeen = true) :
    id ∈ sweepTerminated now st ∧ getClient (sweepTick now st) id = none := by
  constructor
  · exact List.mem_map_of_mem Prod.fst
      (List.mem_filter.mpr ⟨hmem, by simpa using hstale⟩)
  · rw [getClient_eq_none_iff]
    intro c₁ hc₁
    have hmem₁ := (List.mem_filter.mp hc₁).1
    have hp := (List.mem_filter.mp hc₁).2
    have hcc : c₁ = c := value_eq_of_mem_nodup hnd hmem₁ hmem
    rw [hcc] at hp
    simp [hstale] at hp

theorem filter_key_open_eq {st : Registry} {k : String}
    (hnd : (st.map Prod.fst).Nodup) :
    st.filter (fun p => p.1 == k && p.2.wsOpen) =
      (match getClient st k with
       | some c => if c.wsOpen then [(k, c)] else []
       | none => []) := by
  induction st with
  | nil => simp [getClient]
  | cons p rest ih =>
    obtain ⟨k₁, c₁⟩ := p
    simp only [List.map_cons, List.nodup_cons] at hnd
    by_cases hk : k₁ = k
    · subst hk
      have hrest : rest.filter (fun p => p.1 == k₁ && p.2.wsOpen) = [] := by
        rw [List.filter_eq_nil_iff]
        intro a ha
        have : a.1 ≠ k₁ := by
          intro he
          exact hnd.1 (by rw [← he]; exact List.mem_map_of_mem Prod.fst ha)
        simp [this]
      simp only [getClient, if_pos rfl, List.filter_cons, hrest]
      by_cases hq : c₁.wsOpen <;> simp [hq]
    · have hhead : ((k₁, c₁).1 == k && (k₁, c₁).2.wsOpen) = false := by
        simp [hk]
      simp only [getClient, if_neg hk, List.filter_cons, hhead]
      simpa using ih hnd.2

theorem getClient_handlePong_self (st : Registry) (id : String) :
    getClient (handlePong id st) id =
      (getClient st id).map (fun c => { c with isAlive := true }) := by
  induction st with
  | nil => simp [handlePong, getClient]
  | cons p rest ih =>
    obtain ⟨k₁, c₁⟩ := p
    by_cases hk : k₁ = id
    · subst hk
      simp only [handlePong, if_pos rfl]
      simp [getClient]
    · simp only [handlePong, if_neg hk]
      simp only [getClient, if_neg hk]
      exact ih

theorem getClient_handlePong_other (st : Registry) (id k : String)
    (h : k ≠ id) :
    getClient (handlePong id st) k = getClient st k := by
  induction st with
  | nil => simp [handlePong]
  | cons p rest ih =>
    obtain ⟨k₁, c₁⟩ := p
    by_cases hk : k₁ = id
    · subst hk
      simp only [handlePong, if_pos rfl]
      simp only [getClient, if_neg (Ne.symm h)]
      exact ih
    · simp only [handlePong, if_neg hk]
      by_cases hk₀ : k₁ = k
      · subst hk₀
        simp [getClient]
      · simp only [getClient, if_neg hk₀]
        exact ih

theorem keys_handlePong (st : Registry) (id : String) :
    (handlePong id st).map Prod.fst = st.map Prod.fst := by
  induction st with
  | nil => simp [handlePong]
  | cons p rest ih =>
    obtain ⟨k₁, c₁⟩ := p
    by_cases hk : k₁ = id <;> simp [handlePong, hk, ih]

theorem keys_handlePong_iterate (st : Registry) (id : String) (n : Nat) :
    ((handlePong id)^[n] st).map Prod.fst = st.map Prod.fst := by
  induction n with
  | zero => simp
  | succ n ih =>
    rw [Function.iterate_succ_apply', keys_handlePong, ih]

theorem getClient_handlePong_iterate_self (st : Registry) (id : String)
    (c : Client) (n : Nat) (h : getClient st id = some c) :
    getClient ((handlePong id)^[n + 1] st) id = some { c with isAlive := true } := by
  induction n with
  | zero =>
    simp [getClient_handlePong_self, h]
  | succ n ih =>
    rw [Function.iterate_succ_apply', getClient_handlePong_self, ih]
    rfl

/-! ### Claim theorems -/

/-- C1: every connection whose elapsed time since `lastSeen` exceeds the
30-second staleness threshold is, by one sweep tick (the timer callback that
calls `ws.terminate()` on it together with the `close` events this provokes,
each of which runs `clients.delete`), terminated and removed from the
registry. -/
theorem C1_sweep_evicts_stale (now : Int) (st : Registry) (id : String)
    (c : Client) (hnd : (st.map Prod.fst).Nodup) (hmem : (id, c) ∈ st)
    (hstale : now - c.metadata.lastSeen > 30000) :
    id ∈ sweepTerminated now st ∧ getClient (sweepTick now st) id = none := by
  have hs : isStale now c.metadata.lastSeen = true := by
    simp only [isStale, decide_eq_true_eq]
    exact hstale
  exact sweepTick_removes_stale hnd hmem hs

/-- Witness for C1 at a concrete stale registry. -/
theorem C1_sweep_evicts_stale_witness :
    "A" ∈ sweepTerminated 40000 exSt ∧ getClient (sweepTick 40000 exSt) "A" = none :=
  C1_sweep_evicts_stale 40000 exSt "A" exA (by decide) (by decide) (by decide)

/-- C4: a `heartbeat` message from a registered connection sets that entry's
`lastSeen` to the time of receipt, leaves its `label` (`location_device`) and
address (`ip`) fields unchanged, leaves every other registry entry unchanged,
and emits no operator notification. -/
theorem C4_heartbeat_updates_only_lastSeen (clientId clientIP : String)
    (now : Int) (tgReady : Bool) (st : Registry) (c : Client)
    (ipf lf : Option String)
    (hnd : (st.map Prod.fst).Nodup) (hmem : (clientId, c) ∈ st) :
    getClient (handleMessage clientId clientIP now tgReady st
        (.parsed (some "heartbeat") ipf lf)).1 clientId
      = some { c with metadata := { c.metadata with lastSeen := now } } ∧
    (∀ k, k ≠ clientId →
      getClient (handleMessage clientId clientIP now tgReady st
          (.parsed (some "heartbeat") ipf lf)).1 k = getClient st k) ∧
    (handleMessage clientId clientIP now tgReady st
        (.parsed (some "heartbeat") ipf lf)).2 = [] := by
  have hg : getClient st clientId = some c := getClient_eq_some_of_mem hnd hmem
  have hred : handleMessage clientId clientIP now tgReady st
      (.parsed (some "heartbeat") ipf lf)
      = (mapSet st clientId
          { c with metadata := { c.metadata with lastSeen := now } }, []) := by
    simp [handleMessage, hg]
  rw [hred]
  exact ⟨getClient_mapSet_self st clientId _,
         fun k hk => getClient_mapSet_other st clientId k _ hk, rfl⟩

/-- Witness for C4 at a concrete registry. -/
theorem C4_heartbeat_updates_only_lastSeen_witness :
    getClient (handleMessage "A" "9.9.9.9" 5000 false exSt
        (.parsed (some "heartbeat") none none)).1 "A"
      = some { exA with metadata := { exA.metadata with lastSeen := 5000 } } ∧
    (∀ k, k ≠ "A" →
      getClient (handleMessage "A" "9.9.9.9" 5000 false exSt
          (.parsed (some "heartbeat") none none)).1 k = getClient exSt k) ∧
    (handleMessage "A" "9.9.9.9" 5000 false exSt
        (.parsed (some "heartbeat") none none)).2 = [] :=
  C4_heartbeat_updates_only_lastSeen "A" "9.9.9.9" 5000 false exSt exA none none
    (by decide) (by decide)

/-- C6: a malformed device payload (the `catch` branch of `JSON.parse`) is
discarded: the registry is unchanged, the connection is not closed, and no
delivery or operator notification results. -/
theorem C6_malformed_discarded (clientId clientIP : String) (now : Int)
    (tgReady : Bool) (st : Registry) :
    handleMessage clientId clientIP now tgReady st DeviceMsg.malformed
      = (st, []) := rfl

/-- Counterexample for C7 as stated: after a transport-level `error` event on
client `A`, the entry is still in the registry — the `error` handler only
logs and removes nothing. -/
theorem C7_counterexample :
    getClient (handleError "A" exSt) "A" = some exA ∧
    some exA ≠ (none : Option Client) := by decide

/-- C7 amended: a transport `close` event removes the connection's entry from
the registry; a transport-level `error` event leaves the registry unchanged
(the handler only logs; removal after an error happens only through the
`close` event the transport subsequently emits). -/
theorem C7_close_removes_error_does_not (id : String) (st : Registry)
    (hnd : (st.map Prod.fst).Nodup) :
    getClient (handleClose id st) id = none ∧ handleError id st = st :=
  ⟨getClient_mapDelete_self st id hnd, rfl⟩

/-- Witness for the amended C7 at a concrete registry. -/
theorem C7_close_removes_error_does_not_witness :
    getClient (handleClose "A" exSt) "A" = none ∧ handleError "A" exSt = exSt :=
  C7_close_removes_error_does_not "A" exSt (by decide)

/-- C9: a device message whose `type` discriminator is neither `connect` nor
`heartbeat` leaves the sender's registry entry and the rest of the registry
unchanged (the whole registry and notification output is `(st, [])`), so the
connection also remains open. -/
theorem C9_unknown_type_ignored (clientId clientIP : String) (now : Int)
    (tgReady : Bool) (st : Registry) (c : Client)
    (ty ipf lf : Option String)
    (hmem : (clientId, c) ∈ st)
    (hc : ty ≠ some "connect") (hh : ty ≠ some "heartbeat") :
    handleMessage clientId clientIP now tgReady st (.parsed ty ipf lf)
      = (st, []) := by
  cases hgc : getClient st clientId with
  | none => simp [handleMessage, hgc]
  | some cd => simp [handleMessage, hgc, hc, hh]

/-- Witness for C9: an `{"type":"unknown"}` message at a concrete registry. -/
theorem C9_unknown_type_ignored_witness :
    handleMessage "A" "9.9.9.9" 5000 false exSt
      (.parsed (some "unknown") none none) = (exSt, []) :=
  C9_unknown_type_ignored "A" "9.9.9.9" 5000 false exSt exA
    (some "unknown") none none (by decide) (by decide) (by decide)

/-- Counterexample for C2 as stated: on `esp32:A:reboot` the handler delivers
to `A` the payload with field key `clientID` (from
`JSON.stringify({ clientID, message: command })`), not the claimed
`{id: <id>, message: <cmd>}`. -/
theorem C2_counterexample :
    (handleTelegram ["777"] exSt exMsg).2 = [("A", unicastPayload "A" "reboot")] ∧
    (handleTelegram ["777"] exSt exMsg).2
      ≠ [("A", [("id", "A"), ("message", "reboot")])] := by decide

/-- C2 amended: for an accepted operator message of the form
`esp32:<id>:<cmd>`, the handler delivers exactly the payload
`{clientID: <id>, message: <cmd>}` (with `<cmd>` the remaining parts rejoined
with `:`) to the single connection whose id equals `<id>`, if and only if
that connection exists and is open; otherwise it delivers to no connection at
all. -/
theorem C2_unicast_delivery (allowed : List String) (st : Registry)
    (m : TgMsg) (cid tid cmd : String)
    (hnd : (st.map Prod.fst).Nodup)
    (hchat : m.chatId = some cid) (hallow : cid ∈ allowed)
    (hlen : 3 ≤ (jsSplit m.text ':').length)
    (htag : jsToLower ((jsSplit m.text ':').headD "") = "esp32")
    (htid : tid = (jsSplit m.text ':').getD 1 "")
    (hcmd : cmd = jsJoin ":" ((jsSplit m.text ':').drop 2)) :
    (handleTelegram allowed st m).2 =
      (match getClient st tid with
       | some c => if c.wsOpen then [(tid, unicastPayload tid cmd)] else []
       | none => []) := by
  have htext : m.text ≠ "" := by
    intro he
    rw [he] at hlen
    have hz : jsSplit "" ':' = [""] := rfl
    rw [hz] at hlen
    simp at hlen
  simp only [handleTelegram, if_neg htext, hchat, if_pos hallow, routeText]
  rw [if_pos (And.intro hlen htag), ← htid, ← hcmd]
  rw [filter_key_open_eq hnd]
  cases hgc : getClient st tid with
  | none => simp
  | some c =>
    by_cases ho : c.wsOpen = true
    · simp [ho]
    · simp [ho]

/-- Witness for the amended C2 on `esp32:A:reboot` at a concrete registry. -/
theorem C2_unicast_delivery_witness :
    (handleTelegram ["777"] exSt exMsg).2 =
      (match getClient exSt "A" with
       | some c => if c.wsOpen then [("A", unicastPayload "A" "reboot")] else []
       | none => []) :=
  C2_unicast_delivery ["777"] exSt exMsg "777" "A" "reboot"
    (by decide) rfl (by decide) (by decide) (by decide) (by decide) (by decide)

/-- C3: an accepted operator message that does not match the point-to-point
grammar is delivered as the envelope `{from, sender, message}` to every open
connection in the registry and to no closed one, and every delivery carries
exactly that envelope. -/
theorem C3_broadcast_delivery (allowed : List String) (st : Registry)
    (m : TgMsg) (cid : String)
    (hnd : (st.map Prod.fst).Nodup)
    (htext : m.text ≠ "")
    (hchat : m.chatId = some cid) (hallow : cid ∈ allowed)
    (hng : ¬(3 ≤ (jsSplit m.text ':').length ∧
             jsToLower ((jsSplit m.text ':').headD "") = "esp32")) :
    (∀ d ∈ (handleTelegram allowed st m).2,
        d.2 = relayPayload cid (senderStr m) m.text) ∧
    ∀ id c, (id, c) ∈ st →
      ((id, relayPayload cid (senderStr m) m.text) ∈ (handleTelegram allowed st m).2
        ↔ c.wsOpen = true) := by
  simp only [handleTelegram, if_neg htext, hchat, if_pos hallow, routeText]
  rw [if_neg hng]
  simp only [broadcast]
  constructor
  · intro d hd
    rcases List.mem_map.mp hd with ⟨p, hp, he⟩
    rw [← he]
  · intro id c hmem
    constructor
    · intro hdel
      rcases List.mem_map.mp hdel with ⟨p, hp, he⟩
      have hpmem := (List.mem_filter.mp hp).1
      have hpopen := (List.mem_filter.mp hp).2
      injection he with h1 h2
      have hpc : (id, p.2) ∈ st := by
        rw [← h1]
        exact hpmem
      have : p.2 = c := value_eq_of_mem_nodup hnd hpc hmem
      rw [← this]
      simpa using hpopen
    · intro ho
      exact List.mem_map.mpr
        ⟨(id, c), List.mem_filter.mpr ⟨hmem, by simpa using ho⟩, rfl⟩

/-- Witness for C3: plain text `hello` is broadcast to both open clients. -/
theorem C3_broadcast_delivery_witness :
    (∀ d ∈ (handleTelegram ["777"] exSt { exMsg with text := "hello" }).2,
        d.2 = relayPayload "777" (senderStr { exMsg with text := "hello" }) "hello") ∧
    ∀ id c, (id, c) ∈ exSt →
      ((id, relayPayload "777" (senderStr { exMsg with text := "hello" }) "hello")
          ∈ (handleTelegram ["777"] exSt { exMsg with text := "hello" }).2
        ↔ c.wsOpen = true) :=
  C3_broadcast_delivery ["777"] exSt { exMsg with text := "hello" } "777"
    (by decide) (by decide) rfl (by decide) (by decide)

/-- Counterexample for C5 as stated: a registered client `A` (last seen at 0)
sends a message with unrecognized discriminator `telemetry` at time 5000; the
entry's `lastSeen` stays 0 instead of being updated to the time of receipt. -/
theorem C5_counterexample :
    getClient (handleMessage "A" "9.9.9.9" 5000 false exSt
        (.parsed (some "telemetry") none none)).1 "A" = some exA ∧
    exA.metadata.lastSeen = 0 ∧ (0 : Int) ≠ 5000 := by decide

/-- C5 amended: for a registered connection, an inbound message updates the
entry's `lastSeen` to the time of receipt exactly when its discriminator is
`connect` or `heartbeat`; any other discriminator leaves it at its old value,
and a malformed payload leaves the registry unchanged. -/
theorem C5_lastSeen_updated_iff_connect_or_heartbeat (clientId clientIP : String)
    (now : Int) (tgReady : Bool) (st : Registry) (c : Client)
    (ty ipf lf : Option String)
    (hnd : (st.map Prod.fst).Nodup) (hmem : (clientId, c) ∈ st) :
    (∃ c₁, getClient (handleMessage clientId clientIP now tgReady st
          (.parsed ty ipf lf)).1 clientId = some c₁ ∧
        c₁.metadata.lastSeen =
          (if ty = some "connect" ∨ ty = some "heartbeat" then now
           else c.metadata.lastSeen)) ∧
    (handleMessage clientId clientIP now tgReady st DeviceMsg.malformed).1
      = st := by
  refine ⟨?_, rfl⟩
  have hg : getClient st clientId = some c := getClient_eq_some_of_mem hnd hmem
  by_cases hcon : ty = some "connect"
  · subst hcon
    refine ⟨{ c with metadata :=
      { ip := jsOr ipf clientIP, location_device := jsOr lf "Unknown",
        lastSeen := now } }, ?_, by simp⟩
    simp only [handleMessage, hg]
    rw [if_pos trivial]
    exact getClient_mapSet_self st clientId _
  · by_cases hhb : ty = some "heartbeat"
    · subst hhb
      refine ⟨{ c with metadata := { c.metadata with lastSeen := now } },
        ?_, by simp⟩
      have hred : handleMessage clientId clientIP now tgReady st
          (.parsed (some "heartbeat") ipf lf)
          = (mapSet st clientId
              { c with metadata := { c.metadata with lastSeen := now } }, []) := by
        simp [handleMessage, hg]
      rw [hred]
      exact getClient_mapSet_self st clientId _
    · refine ⟨c, ?_, by simp [hcon, hhb]⟩
      have hred : handleMessage clientId clientIP now tgReady st
          (.parsed ty ipf lf) = (st, []) := by
        simp [handleMessage, hg, hcon, hhb]
      rw [hred]
      exact hg

/-- Witness for the amended C5 at an unrecognized discriminator. -/
theorem C5_lastSeen_updated_iff_connect_or_heartbeat_witness :
    (∃ c₁, getClient (handleMessage "A" "9.9.9.9" 5000 false exSt
          (.parsed (some "telemetry") none none)).1 "A" = some c₁ ∧
        c₁.metadata.lastSeen =
          (if (some "telemetry" : Option String) = some "connect" ∨
              (some "telemetry" : Option String) = some "heartbeat" then (5000 : Int)
           else exA.metadata.lastSeen)) ∧
    (handleMessage "A" "9.9.9.9" 5000 false exSt DeviceMsg.malformed).1 = exSt :=
  C5_lastSeen_updated_iff_connect_or_heartbeat "A" "9.9.9.9" 5000 false exSt exA
    (some "telemetry") none none (by decide) (by decide)

/-- C8: an inbound operator-channel message whose chat id is missing or not in
`allowedChatIds` produces no delivery to any connection and leaves the
registry exactly as it was — the same result as if the message had never
arrived. -/
theorem C8_unauthorized_chat_ignored (allowed : List String) (st : Registry)
    (m : TgMsg) (h : ∀ cid, m.chatId = some cid → cid ∉ allowed) :
    handleTelegram allowed st m = (st, []) := by
  unfold handleTelegram
  by_cases ht : m.text = ""
  · simp [ht]
  · simp only [if_neg ht]
    cases hc : m.chatId with
    | none => rfl
    | some cid => simp [h cid hc]

/-- Witness for C8: a message from chat `999` with only `777` allowed. -/
theorem C8_unauthorized_chat_ignored_witness :
    handleTelegram ["777"] exSt
      { chatId := some "999", senderId := some "42", text := "hello" }
      = (exSt, []) :=
  C8_unauthorized_chat_ignored ["777"] exSt
    { chatId := some "999", senderId := some "42", text := "hello" }
    (by intro cid hcid; injection hcid with h1; rw [← h1]; decide)

/-- C10: any number of pong replies only set the transport's `isAlive` flag
(the entry keeps its metadata, in particular `lastSeen`), and the sweep
decision reads only `lastSeen`, so a stale device that answered every probe
is still terminated and evicted by the sweep tick. -/
theorem C10_pong_does_not_prevent_eviction (st : Registry) (id : String)
    (c : Client) (now : Int) (n : Nat)
    (hnd : (st.map Prod.fst).Nodup) (hmem : (id, c) ∈ st)
    (hstale : now - c.metadata.lastSeen > 30000) :
    getClient ((handlePong id)^[n + 1] st) id = some { c with isAlive := true } ∧
    id ∈ sweepTerminated now ((handlePong id)^[n + 1] st) ∧
    getClient (sweepTick now ((handlePong id)^[n + 1] st)) id = none := by
  have hg : getClient st id = some c := getClient_eq_some_of_mem hnd hmem
  have h1 := getClient_handlePong_iterate_self st id c n hg
  have hnd₁ : (((handlePong id)^[n + 1] st).map Prod.fst).Nodup := by
    rw [keys_handlePong_iterate]
    exact hnd
  have hmem₁ : (id, { c with isAlive := true }) ∈ (handlePong id)^[n + 1] st :=
    mem_of_getClient_eq_some h1
  have hstale₁ :
      isStale now ({ c with isAlive := true } : Client).metadata.lastSeen
        = true := by
    simp only [isStale, decide_eq_true_eq]
    exact hstale
  exact ⟨h1, (sweepTick_removes_stale hnd₁ hmem₁ hstale₁).1,
         (sweepTick_removes_stale hnd₁ hmem₁ hstale₁).2⟩

/-- Witness for C10: client `A` answers one probe, then the sweep at 40000
still evicts it. -/
theorem C10_pong_does_not_prevent_eviction_witness :
    getClient ((handlePong "A")^[1] exSt) "A" = some { exA with isAlive := true } ∧
    "A" ∈ sweepTerminated 40000 ((handlePong "A")^[1] exSt) ∧
    getClient (sweepTick 40000 ((handlePong "A")^[1] exSt)) "A" = none :=
  C10_pong_does_not_prevent_eviction exSt "A" exA 40000 0
    (by decide) (by decide) (by decide)

end Track
